import Mathlib

/-!
Shallow embedding of the explainability and intent-inference engine of
`src/app.py` (PhishLens-AI).  Messages are modelled as `List Char`; Python
string operations (lowercasing, `\b\w+\b` tokenisation, substring tests,
the URL / excessive-symbol regexes, the letters-and-spaces filter of the
CAPS check) are translated character by character for the ASCII fragment
the keyword lists and patterns live in.  Python float division in the CAPS
ratio is modelled by exact division on `ℚ` (the two agree for every string
of length below 2^53).  The statistical classifier and the HTTP layer are
external collaborators: the verdict (`"spam"`/`"ham"`) and the confidence
are plain parameters, exactly as in the source functions.
-/

namespace PhishLens

/-- Python `\w` for the ASCII fragment: letters, digits, underscore
(used by `re.findall(r"\b\w+\b", ...)` and the `\b`/`\w` parts of
`URL_PATTERN`). -/
def isWordChar (c : Char) : Bool := c.isAlphanum || c == '_'

/-- Python `\s` (ASCII): space, tab, newline, carriage return, vertical
tab, form feed. -/
def isSpaceChar (c : Char) : Bool :=
  c == ' ' || c == '\t' || c == '\n' || c == '\r' || c == '\x0b' || c == '\x0c'

/-- `re.findall(r"\b\w+\b", s)`: the maximal runs of word characters, in
order.  `cur` is the (reversed) run currently being read. -/
def tokenizeAux : List Char → List Char → List (List Char)
  | [], cur => if cur.isEmpty then [] else [cur.reverse]
  | c :: rest, cur =>
    if isWordChar c then tokenizeAux rest (c :: cur)
    else if cur.isEmpty then tokenizeAux rest [] else cur.reverse :: tokenizeAux rest []

def tokenize (s : List Char) : List (List Char) := tokenizeAux s []

/-- `pat` is a prefix of `s` (character-exact). -/
def startsWithChars : List Char → List Char → Bool
  | [], _ => true
  | _ :: _, [] => false
  | a :: ps, b :: ss => a == b && startsWithChars ps ss

/-- Python `pat in s` for strings: `pat` occurs as a contiguous substring
of `s`. -/
def containsSub (pat : List Char) : List Char → Bool
  | [] => startsWithChars pat []
  | c :: rest => startsWithChars pat (c :: rest) || containsSub pat rest

/-- Strip the literal `pat` from the front of `s`, if present. -/
def afterLiteral : List Char → List Char → Option (List Char)
  | [], s => some s
  | _ :: _, [] => none
  | a :: ps, b :: ss => if a == b then afterLiteral ps ss else none

/-- The literal `pat` followed by at least one non-whitespace character
(the `lit[^\s]+` shape of the first two `URL_PATTERN` alternatives). -/
def litThenNonSpace (pat s : List Char) : Bool :=
  match afterLiteral pat s with
  | some (c :: _) => !isSpaceChar c
  | _ => false

/-- The TLD alternation of `URL_PATTERN`:
`(com|net|org|xyz|info|biz|ru|tk|click)`. -/
def URL_TLDS : List (List Char) :=
  ["com", "net", "org", "xyz", "info", "biz", "ru", "tk", "click"].map String.toList

/-- First alternative of `URL_PATTERN`: `https?://[^\s]+` (on an already
lowercased input; the pattern is compiled with `re.IGNORECASE`). -/
def urlAlt1 (s : List Char) : Bool :=
  litThenNonSpace (("http://").toList) s || litThenNonSpace (("https://").toList) s

/-- Second alternative of `URL_PATTERN`: `www\.[^\s]+`. -/
def urlAlt2 (s : List Char) : Bool :=
  litThenNonSpace (("www.").toList) s

/-- Third alternative of `URL_PATTERN`, minus its leading `\b`:
`\w+\.(com|…|click)[^\s]*` starting exactly at the head of `s`.  Because
`.` is not a word character, the greedy `\w+` must consume the whole run
of word characters before the dot. -/
def urlAlt3 (s : List Char) : Bool :=
  match s with
  | [] => false
  | c :: rest =>
    isWordChar c &&
      (match rest.dropWhile isWordChar with
       | '.' :: t => URL_TLDS.any (fun tld => startsWithChars tld t)
       | _ => false)

/-- `URL_PATTERN.search`: some position of `s` starts a match of one of
the three alternatives.  `prevIsWord` tracks whether the previous
character is a word character, giving the `\b` of the third
alternative. -/
def urlSearchAux (prevIsWord : Bool) : List Char → Bool
  | [] => false
  | c :: rest =>
    urlAlt1 (c :: rest) || urlAlt2 (c :: rest) ||
      (!prevIsWord && urlAlt3 (c :: rest)) ||
      urlSearchAux (isWordChar c) rest

/-- Truth of `URL_PATTERN.findall(message)` / `URL_PATTERN.search(message)`:
the pattern is case-insensitive, so the raw message is lowercased first. -/
def urlFound (message : List Char) : Bool :=
  urlSearchAux false (message.map Char.toLower)

/-- The character class of `EXCESSIVE_SYMBOL_PATTERN = [!£$€@#%&*]{2,}`. -/
def symbolChars : List Char := ['!', '£', '$', '€', '@', '#', '%', '&', '*']

def isSpamSymbol (c : Char) : Bool := symbolChars.contains c

/-- `EXCESSIVE_SYMBOL_PATTERN.search(message)`: two consecutive characters
from the symbol class occur somewhere in the message. -/
def symbolSearch : List Char → Bool
  | c1 :: c2 :: rest => (isSpamSymbol c1 && isSpamSymbol c2) || symbolSearch (c2 :: rest)
  | _ => false

/-- `re.sub(r"[^a-zA-Z ]", "", message)`: the subsequence of ASCII letters
and spaces of the raw message (note: spaces are kept by the source). -/
def wordsOnly (message : List Char) : List Char :=
  message.filter (fun c => c.isAlpha || c == ' ')

/-- The denominator `max(len(words_only), 1)` of the CAPS-ratio check. -/
def capsDenominator (message : List Char) : Nat :=
  max (wordsOnly message).length 1

/-- The guard of check 5 of `explain_message`:
`words_only and sum(1 for c in words_only if c.isupper()) / max(len(words_only), 1) > 0.5`. -/
def capsCond (message : List Char) : Prop :=
  wordsOnly message ≠ [] ∧
    (1 / 2 : ℚ) < ((wordsOnly message).countP Char.isUpper : ℚ) / (capsDenominator message : ℚ)

instance (message : List Char) : Decidable (capsCond message) := by
  have hd : 0 < capsDenominator message := lt_of_lt_of_le Nat.zero_lt_one (le_max_right _ _)
  have hdq : (0 : ℚ) < (capsDenominator message : ℚ) := by exact_mod_cast hd
  refine decidable_of_iff
    (wordsOnly message ≠ [] ∧
      capsDenominator message < 2 * (wordsOnly message).countP Char.isUpper) ?_
  unfold capsCond
  rw [lt_div_iff₀ hdq]
  refine and_congr_right fun _ => ?_
  rw [show ((1 : ℚ) / 2 * (capsDenominator message : ℚ) <
        ((wordsOnly message).countP Char.isUpper : ℚ)) ↔
      ((capsDenominator message : ℚ) < 2 * ((wordsOnly message).countP Char.isUpper : ℚ)) from
    ⟨fun h => by linarith, fun h => by linarith⟩]
  exact_mod_cast Iff.rfl

/-- Keep-first order-preserving deduplication, with `seen` the keys already
kept. -/
def dedupFirstAux (seen : List (List Char)) : List (List Char) → List (List Char)
  | [] => []
  | x :: xs => if x ∈ seen then dedupFirstAux seen xs else x :: dedupFirstAux (x :: seen) xs

/-- `list(dict.fromkeys(xs))`: drop every element equal to an earlier one,
keeping first occurrences in order. -/
def dedupFirst (l : List (List Char)) : List (List Char) := dedupFirstAux [] l

/-- `SPAM_KEYWORDS` of `src/app.py`. -/
def SPAM_KEYWORDS : List (List Char) :=
  ["free", "win", "winner", "click", "offer", "urgent", "lottery",
   "now", "prize", "cash", "reward", "claim", "selected", "congratulations",
   "exclusive", "limited", "guaranteed", "act", "earn", "money",
   "bonus", "upgrade", "membership", "discount", "cheap", "buy",
   "call", "text", "subscribe", "unsubscribe", "credit", "loan"].map String.toList

/-- `URGENCY_WORDS` of `src/app.py`. -/
def URGENCY_WORDS : List (List Char) :=
  ["urgent", "immediately", "now", "today", "expires", "limited", "hurry",
   "act", "fast", "quick", "instant", "deadline", "last chance", "expiring"].map String.toList

/-- `MONEY_THEFT_KEYWORDS` of `src/app.py`. -/
def MONEY_THEFT_KEYWORDS : List (List Char) :=
  ["win", "winner", "prize", "cash", "money", "reward", "claim", "payment",
   "transfer", "deposit", "account", "loan", "credit", "debt", "fee",
   "pay", "bitcoin", "cryptocurrency", "investment", "profit", "earn"].map String.toList

/-- `DATA_THEFT_KEYWORDS` of `src/app.py`. -/
def DATA_THEFT_KEYWORDS : List (List Char) :=
  ["verify", "confirm", "update", "security", "password", "account",
   "login", "credentials", "personal", "information", "details", "ssn",
   "social security", "card number", "cvv", "pin", "identity", "verification"].map String.toList

/-- `PANIC_KEYWORDS` of `src/app.py`. -/
def PANIC_KEYWORDS : List (List Char) :=
  ["urgent", "immediately", "suspend", "suspended", "blocked", "locked",
   "compromised", "unauthorized", "fraud", "fraudulent", "alert", "warning",
   "expires", "expired", "deadline", "last chance", "act now", "emergency"].map String.toList

/-- `MALWARE_KEYWORDS` of `src/app.py`. -/
def MALWARE_KEYWORDS : List (List Char) :=
  ["click", "download", "install", "update", "software", "antivirus",
   "security update", "patch", "link", "attachment", "file"].map String.toList

/-- `f"⚠️ Contains suspicious keyword: <b>{keyword}</b>"`. -/
def susReason (keyword : List Char) : List Char :=
  ("⚠️ Contains suspicious keyword: <b>").toList ++ keyword ++ ("</b>").toList

/-- `f"🚨 Contains urgency word: <b>{word}</b>"`. -/
def urgReason (word : List Char) : List Char :=
  ("🚨 Contains urgency word: <b>").toList ++ word ++ ("</b>").toList

def urlReason : List Char :=
  ("🔗 Contains a URL — possible phishing link detected").toList

def symReason : List Char :=
  ("💲 Contains excessive symbols ($$, !!, ££) — common in spam").toList

def capsReason : List Char :=
  ("🔠 Message uses excessive CAPS — typical spam behavior").toList

/-- Body of check 1 of `explain_message`, for one keyword of the
`SPAM_KEYWORDS` loop. -/
def spamStep (words_in_msg : List (List Char))
    (acc : List (List Char) × List (List Char)) (keyword : List Char) :
    List (List Char) × List (List Char) :=
  if keyword ∈ words_in_msg then
    if keyword ∉ acc.1 then (acc.1 ++ [keyword], acc.2 ++ [susReason keyword]) else acc
  else acc

/-- Body of check 2 of `explain_message`, for one word of the
`URGENCY_WORDS` loop. -/
def urgencyStep (msg_lower : List Char)
    (acc : List (List Char) × List (List Char)) (word : List Char) :
    List (List Char) × List (List Char) :=
  if containsSub word msg_lower ∧ word ∉ acc.1 then
    (acc.1 ++ [word], acc.2 ++ [urgReason word])
  else acc

/-- `explain_message` of `src/app.py`: returns
`(suspicious_words, explanations)`. -/
def explain_message (message : List Char) : List (List Char) × List (List Char) :=
  let msg_lower := message.map Char.toLower
  let words_in_msg := tokenize msg_lower
  let acc1 := SPAM_KEYWORDS.foldl (spamStep words_in_msg) ([], [])
  let acc2 := URGENCY_WORDS.foldl (urgencyStep msg_lower) acc1
  let acc3 :=
    if urlFound message then
      (acc2.1 ++ [("http").toList, ("www").toList], acc2.2 ++ [urlReason])
    else acc2
  let acc4 := if symbolSearch message then (acc3.1, acc3.2 ++ [symReason]) else acc3
  let acc5 := if capsCond message then (acc4.1, acc4.2 ++ [capsReason]) else acc4
  (dedupFirst acc5.1, acc5.2)

/-- An intent descriptor: the dictionaries appended by
`detect_scammer_intent`. -/
structure IntentDescriptor where
  icon : String
  goal : String
  description : String
  deriving DecidableEq

def moneyIntent : IntentDescriptor :=
  { icon := "💰", goal := "Steal Money",
    description := "Scammer wants you to send money or provide payment information" }

def dataIntent : IntentDescriptor :=
  { icon := "🔐", goal := "Steal Personal Data",
    description := "Scammer is trying to harvest your login credentials or personal information" }

def panicIntent : IntentDescriptor :=
  { icon := "😱", goal := "Create Panic",
    description := "Scammer uses urgency and fear to make you act without thinking" }

def malwareIntent : IntentDescriptor :=
  { icon := "🦠", goal := "Install Malware",
    description := "Scammer wants you to click a link or download malicious software" }

def genericIntent : IntentDescriptor :=
  { icon := "🎯", goal := "Deceptive Intent",
    description := "Scammer is attempting to deceive or manipulate you" }

/-- `money_matches` of `detect_scammer_intent`:
`sum(1 for word in MONEY_THEFT_KEYWORDS if word in msg_lower)`. -/
def moneyMatches (message : List Char) : Nat :=
  MONEY_THEFT_KEYWORDS.countP (fun word => containsSub word (message.map Char.toLower))

/-- `data_matches` of `detect_scammer_intent`. -/
def dataMatches (message : List Char) : Nat :=
  DATA_THEFT_KEYWORDS.countP (fun word => containsSub word (message.map Char.toLower))

/-- `panic_matches` of `detect_scammer_intent`. -/
def panicMatches (message : List Char) : Nat :=
  PANIC_KEYWORDS.countP (fun word => containsSub word (message.map Char.toLower))

/-- `malware_matches` of `detect_scammer_intent`. -/
def malwareMatches (message : List Char) : Nat :=
  MALWARE_KEYWORDS.countP (fun word => containsSub word (message.map Char.toLower))

/-- `detect_scammer_intent` of `src/app.py` (the let-bound counts are the
named definitions above; `msg_lower = message.lower()` is inlined in
them). -/
def detect_scammer_intent (message : List Char) (prediction : String) :
    List IntentDescriptor :=
  if prediction ≠ "spam" then []
  else
    let intents : List IntentDescriptor := []
    let money_matches := moneyMatches message
    let intents := if money_matches ≥ 2 then intents ++ [moneyIntent] else intents
    let data_matches := dataMatches message
    let intents := if data_matches ≥ 2 then intents ++ [dataIntent] else intents
    let panic_matches := panicMatches message
    let intents := if panic_matches ≥ 2 then intents ++ [panicIntent] else intents
    let malware_matches := malwareMatches message
    let urls_present := urlFound message
    let intents :=
      if malware_matches ≥ 2 ∧ urls_present then intents ++ [malwareIntent] else intents
    if intents = [] then intents ++ [genericIntent] else intents

/-- `"ℹ️ Model predicts HAM, but some suspicious patterns were found:"`. -/
def hamNote : List Char :=
  ("ℹ️ Model predicts HAM, but some suspicious patterns were found:").toList

/-- `"🤖 ML model detected spam patterns based on learned features."`. -/
def spamNote : List Char :=
  ("🤖 ML model detected spam patterns based on learned features.").toList

/-- The JSON payload assembled by the `/predict` route. -/
structure PredictResponse where
  prediction : String
  confidence : ℚ
  suspicious_words : List (List Char)
  explanation : List (List Char)
  scammer_intent : List IntentDescriptor
  deriving DecidableEq

/-- The explanation-building core of the `predict` route of `src/app.py`
(its lines after the classifier call): run the analyzer and the intent
detector, then apply the two reconciliation rules. -/
def buildExplanation (message : List Char) (prediction : String) (confidence : ℚ) :
    PredictResponse :=
  let p := explain_message message
  let suspicious_words := p.1
  let explanations := p.2
  let scammer_intent := detect_scammer_intent message prediction
  let explanations :=
    if prediction = "ham" ∧ suspicious_words ≠ [] then hamNote :: explanations
    else explanations
  let explanations :=
    if prediction = "spam" ∧ explanations = [] then explanations ++ [spamNote]
    else explanations
  { prediction := prediction, confidence := confidence,
    suspicious_words := suspicious_words, explanation := explanations,
    scammer_intent := scammer_intent }

/-- Closed form of check 1: the spam keywords that occur as exact tokens of
the lowercased message, in list order. -/
def spamStepTerms (message : List Char) : List (List Char) :=
  SPAM_KEYWORDS.filter (fun kw => decide (kw ∈ tokenize (message.map Char.toLower)))

/-- Closed form of check 2: the urgency words that occur as substrings of
the lowercased message and were not already flagged by check 1, in list
order. -/
def urgencyStepTerms (message : List Char) : List (List Char) :=
  URGENCY_WORDS.filter
    (fun w => decide (containsSub w (message.map Char.toLower) = true ∧ w ∉ spamStepTerms message))

/-- Modelled from the spec (for comparison with `capsCond` of the code):
"Compute the ratio of uppercase letters to total letters among alphabetic
characters only (ignore digits/punctuation/whitespace in both numerator
and denominator). If the letter-only substring is non-empty and the ratio
exceeds 0.5". -/
def capsSpecCond (message : List Char) : Prop :=
  message.filter Char.isAlpha ≠ [] ∧
    (1 / 2 : ℚ) < ((message.filter Char.isAlpha).countP Char.isUpper : ℚ) /
      ((message.filter Char.isAlpha).length : ℚ)

/-- The two fixed markers appended to `suspicious_words` by the URL check. -/
def httpMark : List Char := ("http").toList

def wwwMark : List Char := ("www").toList

instance (message : List Char) : Decidable (capsSpecCond message) := by
  refine decidable_of_iff
    (message.filter Char.isAlpha ≠ [] ∧
      (message.filter Char.isAlpha).length <
        2 * (message.filter Char.isAlpha).countP Char.isUpper) ?_
  unfold capsSpecCond
  by_cases hne : message.filter Char.isAlpha = []
  · simp [hne]
  · have hd : 0 < (message.filter Char.isAlpha).length := List.length_pos.mpr hne
    have hdq : (0 : ℚ) < ((message.filter Char.isAlpha).length : ℚ) := by exact_mod_cast hd
    rw [lt_div_iff₀ hdq]
    refine and_congr_right fun _ => ?_
    rw [show ((1 : ℚ) / 2 * ((message.filter Char.isAlpha).length : ℚ) <
          ((message.filter Char.isAlpha).countP Char.isUpper : ℚ)) ↔
        (((message.filter Char.isAlpha).length : ℚ) <
          2 * ((message.filter Char.isAlpha).countP Char.isUpper : ℚ)) from
      ⟨fun h => by linarith, fun h => by linarith⟩]
    exact_mod_cast Iff.rfl

/-! ### Basic lemmas -/

theorem spam_keywords_nodup : SPAM_KEYWORDS.Nodup := by decide

theorem urgency_words_nodup : URGENCY_WORDS.Nodup := by decide

theorem dedupFirstAux_eq_self :
    ∀ (l : List (List Char)) (seen : List (List Char)), l.Nodup →
      (∀ x ∈ l, x ∉ seen) → dedupFirstAux seen l = l := by
  intro l
  induction l with
  | nil => intro seen _ _; rfl
  | cons x xs ih =>
    intro seen hnd hseen
    obtain ⟨hx, hnd'⟩ := List.nodup_cons.mp hnd
    rw [dedupFirstAux, if_neg (hseen x (List.mem_cons_self x xs))]
    congr 1
    refine ih (x :: seen) hnd' fun y hy => ?_
    intro hmem
    rcases List.mem_cons.mp hmem with h | h
    · exact hx (h ▸ hy)
    · exact hseen y (List.mem_cons_of_mem x hy) h

theorem dedupFirst_eq_self {l : List (List Char)} (h : l.Nodup) : dedupFirst l = l :=
  dedupFirstAux_eq_self l [] h (by simp)

/-- Closed form for the accumulating loops of checks 1 and 2: folding a
conditional-append step over a duplicate-free keyword list appends, to each
component, exactly the keywords passing the test that are not already
flagged. -/
theorem foldl_step_closed (C : List Char → Prop) [DecidablePred C]
    (r : List Char → List Char)
    (f : List (List Char) × List (List Char) → List Char → List (List Char) × List (List Char))
    (hf : ∀ acc kw, f acc kw =
      if C kw ∧ kw ∉ acc.1 then (acc.1 ++ [kw], acc.2 ++ [r kw]) else acc) :
    ∀ (l : List (List Char)), l.Nodup →
      ∀ acc : List (List Char) × List (List Char),
        l.foldl f acc =
          (acc.1 ++ l.filter (fun kw => decide (C kw ∧ kw ∉ acc.1)),
           acc.2 ++ (l.filter (fun kw => decide (C kw ∧ kw ∉ acc.1))).map r) := by
  intro l
  induction l with
  | nil => intro _ acc; simp
  | cons kw l ih =>
    intro hl acc
    obtain ⟨hkw, hnd⟩ := List.nodup_cons.mp hl
    rw [List.foldl_cons, hf]
    by_cases h : C kw ∧ kw ∉ acc.1
    · rw [if_pos h, ih hnd]
      have hfilt : (l.filter fun k => decide (C k ∧ k ∉ (acc.1 ++ [kw], acc.2 ++ [r kw]).1))
          = l.filter fun k => decide (C k ∧ k ∉ acc.1) := by
        refine List.filter_congr fun a ha => ?_
        have hne : a ≠ kw := fun e => hkw (e ▸ ha)
        simp [List.mem_append, hne]
      rw [hfilt]
      have hcons : (kw :: l).filter (fun k => decide (C k ∧ k ∉ acc.1)) =
          kw :: l.filter (fun k => decide (C k ∧ k ∉ acc.1)) := by
        rw [List.filter_cons_of_pos]
        simpa using h
      rw [hcons]
      simp
    · rw [if_neg h, ih hnd]
      have hcons : (kw :: l).filter (fun k => decide (C k ∧ k ∉ acc.1)) =
          l.filter (fun k => decide (C k ∧ k ∉ acc.1)) := by
        rw [List.filter_cons_of_neg]
        simpa using h
      rw [hcons]

theorem spamStep_eq (toks : List (List Char)) (acc : List (List Char) × List (List Char))
    (kw : List Char) :
    spamStep toks acc kw =
      if kw ∈ toks ∧ kw ∉ acc.1 then (acc.1 ++ [kw], acc.2 ++ [susReason kw]) else acc := by
  by_cases h1 : kw ∈ toks <;> by_cases h2 : kw ∈ acc.1 <;> simp [spamStep, h1, h2]

theorem acc1_eq (message : List Char) :
    SPAM_KEYWORDS.foldl (spamStep (tokenize (message.map Char.toLower))) ([], []) =
      (spamStepTerms message, (spamStepTerms message).map susReason) := by
  rw [foldl_step_closed (fun kw => kw ∈ tokenize (message.map Char.toLower)) susReason _
    (spamStep_eq _) SPAM_KEYWORDS spam_keywords_nodup ([], [])]
  have : (SPAM_KEYWORDS.filter fun kw =>
      decide (kw ∈ tokenize (message.map Char.toLower) ∧ kw ∉ ([] : List (List Char)))) =
      spamStepTerms message := by
    refine List.filter_congr fun a _ => ?_
    simp
  rw [this]
  simp

theorem urgencyStep_eq (msg_lower : List Char) (acc : List (List Char) × List (List Char))
    (word : List Char) :
    urgencyStep msg_lower acc word =
      if containsSub word msg_lower = true ∧ word ∉ acc.1 then
        (acc.1 ++ [word], acc.2 ++ [urgReason word])
      else acc := rfl

theorem acc2_eq (message : List Char) :
    URGENCY_WORDS.foldl (urgencyStep (message.map Char.toLower))
        (spamStepTerms message, (spamStepTerms message).map susReason) =
      (spamStepTerms message ++ urgencyStepTerms message,
       (spamStepTerms message).map susReason ++ (urgencyStepTerms message).map urgReason) := by
  rw [foldl_step_closed (fun w => containsSub w (message.map Char.toLower) = true) urgReason _
    (urgencyStep_eq _) URGENCY_WORDS urgency_words_nodup _]
  rfl

theorem mem_spamStepTerms (message : List Char) (a : List Char) :
    a ∈ spamStepTerms message ↔
      a ∈ SPAM_KEYWORDS ∧ a ∈ tokenize (message.map Char.toLower) := by
  simp [spamStepTerms]

theorem mem_urgencyStepTerms (message : List Char) (a : List Char) :
    a ∈ urgencyStepTerms message ↔
      a ∈ URGENCY_WORDS ∧ containsSub a (message.map Char.toLower) = true ∧
        a ∉ spamStepTerms message := by
  simp [urgencyStepTerms]

theorem marks_not_keywords :
    httpMark ∉ SPAM_KEYWORDS ∧ httpMark ∉ URGENCY_WORDS ∧
      wwwMark ∉ SPAM_KEYWORDS ∧ wwwMark ∉ URGENCY_WORDS := by decide

/-- The undeduplicated flagged-term sequence contains no duplicate: each of
the two keyword loops deduplicates on insertion, and the two URL markers
coincide with no keyword. -/
theorem flagged_nodup (message : List Char) :
    (spamStepTerms message ++ urgencyStepTerms message ++
      (if urlFound message then [httpMark, wwwMark] else [])).Nodup := by
  have h1 : (spamStepTerms message).Nodup := spam_keywords_nodup.filter _
  have h2 : (urgencyStepTerms message).Nodup := urgency_words_nodup.filter _
  have h12 : List.Disjoint (spamStepTerms message) (urgencyStepTerms message) := by
    intro a ha hb
    exact ((mem_urgencyStepTerms message a).mp hb).2.2 ha
  rw [List.nodup_append, List.nodup_append]
  refine ⟨⟨h1, h2, h12⟩, ?_, ?_⟩
  · by_cases hu : urlFound message = true
    · rw [if_pos hu]
      decide
    · rw [if_neg hu]
      exact List.nodup_nil
  · intro a ha hmem
    by_cases hu : urlFound message = true
    · rw [if_pos hu] at hmem
      have hor : a = httpMark ∨ a = wwwMark := by
        rcases List.mem_cons.mp hmem with h | h
        · exact Or.inl h
        · exact Or.inr (List.mem_singleton.mp h)
      rcases List.mem_append.mp ha with h | h
      · have hk : a ∈ SPAM_KEYWORDS := ((mem_spamStepTerms message a).mp h).1
        rcases hor with rfl | rfl
        · exact marks_not_keywords.1 hk
        · exact marks_not_keywords.2.2.1 hk
      · have hk : a ∈ URGENCY_WORDS := ((mem_urgencyStepTerms message a).mp h).1
        rcases hor with rfl | rfl
        · exact marks_not_keywords.2.1 hk
        · exact marks_not_keywords.2.2.2 hk
    · rw [if_neg hu] at hmem
      exact List.not_mem_nil a hmem

/-- Closed form of `explain_message`: the flagged terms are the spam-step
terms, then the urgency-step terms, then (if a URL was found) the two
synthetic markers; the reasons are the per-step reasons concatenated in
the fixed order of the five checks.  In particular the final
`dict.fromkeys` deduplication is the identity here. -/
theorem explain_message_eq (message : List Char) :
    explain_message message =
      (spamStepTerms message ++ urgencyStepTerms message ++
         (if urlFound message then [httpMark, wwwMark] else []),
       (spamStepTerms message).map susReason ++ (urgencyStepTerms message).map urgReason ++
         (if urlFound message then [urlReason] else []) ++
         (if symbolSearch message then [symReason] else []) ++
         (if capsCond message then [capsReason] else [])) := by
  have hnd := flagged_nodup message
  simp only [explain_message]
  rw [acc1_eq, acc2_eq]
  by_cases hu : urlFound message = true <;>
    by_cases hs : symbolSearch message = true <;>
      by_cases hc : capsCond message <;>
        simp [hu, hs, hc, httpMark, wwwMark] at hnd ⊢ <;>
        rw [dedupFirst_eq_self hnd]

/-! ### Shapes of the reason strings -/

theorem susReason_head (a : List Char) : (susReason a).head? = some '⚠' := rfl

theorem urgReason_head (a : List Char) : (urgReason a).head? = some '🚨' := rfl

theorem susReason_inj {a b : List Char} (h : susReason a = susReason b) : a = b := by
  unfold susReason at h
  rw [List.append_assoc, List.append_assoc] at h
  exact List.append_cancel_right (List.append_cancel_left h)

theorem urgReason_inj {a b : List Char} (h : urgReason a = urgReason b) : a = b := by
  unfold urgReason at h
  rw [List.append_assoc, List.append_assoc] at h
  exact List.append_cancel_right (List.append_cancel_left h)

theorem susReason_ne_urgReason (a b : List Char) : susReason a ≠ urgReason b := by
  intro h
  have h1 := susReason_head a
  rw [h, urgReason_head] at h1
  exact absurd h1 (by decide)

theorem susReason_ne_const (a : List Char) :
    susReason a ≠ urlReason ∧ susReason a ≠ symReason ∧ susReason a ≠ capsReason ∧
      susReason a ≠ hamNote ∧ susReason a ≠ spamNote := by
  refine ⟨?_, ?_, ?_, ?_, ?_⟩ <;>
    · intro h
      have h1 := susReason_head a
      rw [h] at h1
      exact absurd h1 (by decide)

theorem urgReason_ne_const (a : List Char) :
    urgReason a ≠ urlReason ∧ urgReason a ≠ symReason ∧ urgReason a ≠ capsReason ∧
      urgReason a ≠ hamNote ∧ urgReason a ≠ spamNote := by
  refine ⟨?_, ?_, ?_, ?_, ?_⟩ <;>
    · intro h
      have h1 := urgReason_head a
      rw [h] at h1
      exact absurd h1 (by decide)

theorem const_reasons_ne :
    urlReason ≠ symReason ∧ urlReason ≠ capsReason ∧ symReason ≠ capsReason ∧
      hamNote ≠ urlReason ∧ hamNote ≠ symReason ∧ hamNote ≠ capsReason ∧
      spamNote ≠ urlReason ∧ spamNote ≠ symReason ∧ spamNote ≠ capsReason := by decide

/-! ### Membership in the analyzer's output -/

theorem mem_reasons_iff (message : List Char) (r : List Char) :
    r ∈ (explain_message message).2 ↔
      (∃ a ∈ spamStepTerms message, susReason a = r) ∨
      (∃ a ∈ urgencyStepTerms message, urgReason a = r) ∨
      (urlFound message = true ∧ r = urlReason) ∨
      (symbolSearch message = true ∧ r = symReason) ∨
      (capsCond message ∧ r = capsReason) := by
  rw [explain_message_eq]
  by_cases hu : urlFound message = true <;> by_cases hs : symbolSearch message = true <;>
    by_cases hc : capsCond message <;>
      simp [hu, hs, hc, or_assoc]

theorem mem_flagged_iff (message : List Char) (t : List Char) :
    t ∈ (explain_message message).1 ↔
      t ∈ spamStepTerms message ∨ t ∈ urgencyStepTerms message ∨
        (urlFound message = true ∧ (t = httpMark ∨ t = wwwMark)) := by
  rw [explain_message_eq]
  by_cases hu : urlFound message = true <;> simp [hu, or_assoc]

/-! ### Closed forms of the intent detector -/

theorem detect_eq_nil_of_ne (message : List Char) (prediction : String)
    (h : prediction ≠ "spam") : detect_scammer_intent message prediction = [] := by
  simp [detect_scammer_intent, h]

theorem detect_spam_eq (message : List Char) :
    detect_scammer_intent message ("spam") =
      (if moneyMatches message ≥ 2 then [moneyIntent] else []) ++
        (if dataMatches message ≥ 2 then [dataIntent] else []) ++
        (if panicMatches message ≥ 2 then [panicIntent] else []) ++
        (if malwareMatches message ≥ 2 ∧ urlFound message then [malwareIntent] else []) ++
        (if ¬(moneyMatches message ≥ 2) ∧ ¬(dataMatches message ≥ 2) ∧
            ¬(panicMatches message ≥ 2) ∧ ¬(malwareMatches message ≥ 2 ∧ urlFound message)
          then [genericIntent] else []) := by
  by_cases h1 : moneyMatches message ≥ 2 <;>
    by_cases h2 : dataMatches message ≥ 2 <;>
      by_cases h3 : panicMatches message ≥ 2 <;>
        by_cases h4 : malwareMatches message ≥ 2 ∧ urlFound message = true <;>
          simp [detect_scammer_intent, h1, h2, h3, h4]

theorem intent_constants_ne :
    moneyIntent ≠ dataIntent ∧ moneyIntent ≠ panicIntent ∧ moneyIntent ≠ malwareIntent ∧
      moneyIntent ≠ genericIntent ∧ dataIntent ≠ panicIntent ∧ dataIntent ≠ malwareIntent ∧
      dataIntent ≠ genericIntent ∧ panicIntent ≠ malwareIntent ∧ panicIntent ≠ genericIntent ∧
      malwareIntent ≠ genericIntent := by decide

theorem mem_ite_singleton {α : Type} {c : Prop} [Decidable c] {a x : α} :
    a ∈ (if c then [x] else []) ↔ c ∧ a = x := by
  by_cases h : c <;> simp [h]

theorem ite_sublist_single {α : Type} {c : Prop} [Decidable c] {x : α} :
    (if c then [x] else []).Sublist [x] := by
  by_cases h : c
  · rw [if_pos h]
  · rw [if_neg h]
    exact List.nil_sublist _

theorem hamNote_not_reason (message : List Char) : hamNote ∉ (explain_message message).2 := by
  intro hmem
  rcases (mem_reasons_iff message hamNote).mp hmem with
    ⟨a, _, ha⟩ | ⟨a, _, ha⟩ | ⟨_, h⟩ | ⟨_, h⟩ | ⟨_, h⟩
  · exact (susReason_ne_const a).2.2.2.1 ha
  · exact (urgReason_ne_const a).2.2.2.1 ha
  · exact const_reasons_ne.2.2.2.1 h
  · exact const_reasons_ne.2.2.2.2.1 h
  · exact const_reasons_ne.2.2.2.2.2.1 h

theorem spamNote_not_reason (message : List Char) : spamNote ∉ (explain_message message).2 := by
  intro hmem
  rcases (mem_reasons_iff message spamNote).mp hmem with
    ⟨a, _, ha⟩ | ⟨a, _, ha⟩ | ⟨_, h⟩ | ⟨_, h⟩ | ⟨_, h⟩
  · exact (susReason_ne_const a).2.2.2.2 ha
  · exact (urgReason_ne_const a).2.2.2.2 ha
  · exact const_reasons_ne.2.2.2.2.2.2.1 h
  · exact const_reasons_ne.2.2.2.2.2.2.2.1 h
  · exact const_reasons_ne.2.2.2.2.2.2.2.2 h

/-! ### Claim theorems -/

/-- C1: for every input message, the `flaggedTerms` list returned by
`explain_message` contains no duplicate entries, and it equals the raw
insertion sequence of the five checks (spam-keyword hits in list order,
then urgency hits in list order, then the two URL markers), so terms
appear in first-insertion order; the reasons list is exactly the
concatenation of the per-step reason lists in the fixed emission order of
the detection steps. -/
theorem explain_message_nodup_first_insertion (m : List Char) :
    (explain_message m).1.Nodup ∧
      explain_message m =
        (spamStepTerms m ++ urgencyStepTerms m ++
           (if urlFound m then [httpMark, wwwMark] else []),
         (spamStepTerms m).map susReason ++ (urgencyStepTerms m).map urgReason ++
           (if urlFound m then [urlReason] else []) ++
           (if symbolSearch m then [symReason] else []) ++
           (if capsCond m then [capsReason] else [])) := by
  refine ⟨?_, explain_message_eq m⟩
  rw [explain_message_eq]
  exact flagged_nodup m

/-- C1 witness: the guarantee at a concrete message exercising all steps. -/
theorem explain_message_nodup_first_insertion_witness :
    (explain_message (("FREE cash now!! www.x.com").toList)).1.Nodup ∧
      explain_message (("FREE cash now!! www.x.com").toList) =
        (spamStepTerms (("FREE cash now!! www.x.com").toList) ++
           urgencyStepTerms (("FREE cash now!! www.x.com").toList) ++
           (if urlFound (("FREE cash now!! www.x.com").toList) then [httpMark, wwwMark] else []),
         (spamStepTerms (("FREE cash now!! www.x.com").toList)).map susReason ++
           (urgencyStepTerms (("FREE cash now!! www.x.com").toList)).map urgReason ++
           (if urlFound (("FREE cash now!! www.x.com").toList) then [urlReason] else []) ++
           (if symbolSearch (("FREE cash now!! www.x.com").toList) then [symReason] else []) ++
           (if capsCond (("FREE cash now!! www.x.com").toList) then [capsReason] else [])) :=
  explain_message_nodup_first_insertion _

/-- C2 counterexample: at the message `"A "` the alphabetic characters are
the single uppercase letter `A`, so the claimed letters-only ratio is
`1 > 0.5` and the claim demands the CAPS reason; the code computes the
ratio over letters *and spaces* (`1/2`), so no CAPS reason is emitted. -/
theorem caps_ratio_counterexample :
    capsSpecCond (("A ").toList) ∧ capsReason ∉ (explain_message (("A ").toList)).2 := by
  constructor
  · decide
  · decide

/-- C2 amended: the CAPS reason is appended iff the letters-and-spaces
string `re.sub(r"[^a-zA-Z ]", "", message)` is non-empty and the ratio of
uppercase letters to its total length (letters *and spaces* in the
denominator, as the source's regex keeps spaces) exceeds `0.5`. -/
theorem caps_reason_iff (m : List Char) :
    capsReason ∈ (explain_message m).2 ↔ capsCond m := by
  rw [mem_reasons_iff]
  constructor
  · rintro (⟨a, _, ha⟩ | ⟨a, _, ha⟩ | ⟨_, h⟩ | ⟨_, h⟩ | ⟨hc, _⟩)
    · exact absurd ha (susReason_ne_const a).2.2.1
    · exact absurd ha (urgReason_ne_const a).2.2.1
    · exact absurd h.symm const_reasons_ne.2.1
    · exact absurd h.symm const_reasons_ne.2.2.1
    · exact hc
  · intro hc
    exact Or.inr (Or.inr (Or.inr (Or.inr ⟨hc, rfl⟩)))

/-- C2 amended, witness: an all-caps message triggers the reason. -/
theorem caps_reason_iff_witness :
    capsReason ∈ (explain_message (("HEY YOU").toList)).2 ↔ capsCond (("HEY YOU").toList) :=
  caps_reason_iff _

/-- C3: a spam-set keyword is flagged with its "suspicious keyword" reason
iff it occurs as an exact word token of the lowercased message; an
urgency-set word is flagged with its "urgency word" reason iff it occurs
as a substring of the lowercased message and is not already among the
spam-step flagged terms (the flagged terms present when the urgency scan
runs); and the flagged list lists the spam-keyword hits in the keyword
list's order followed by the urgency hits in that list's order. -/
theorem keyword_flag_iff (m : List Char) :
    (∀ kw ∈ SPAM_KEYWORDS,
      (kw ∈ (explain_message m).1 ∧ susReason kw ∈ (explain_message m).2) ↔
        kw ∈ tokenize (m.map Char.toLower)) ∧
    (∀ w ∈ URGENCY_WORDS,
      (w ∈ (explain_message m).1 ∧ urgReason w ∈ (explain_message m).2) ↔
        (containsSub w (m.map Char.toLower) = true ∧ w ∉ spamStepTerms m)) ∧
    (explain_message m).1 =
      spamStepTerms m ++ urgencyStepTerms m ++
        (if urlFound m then [httpMark, wwwMark] else []) := by
  refine ⟨?_, ?_, by rw [explain_message_eq]⟩
  · intro kw hkw
    constructor
    · rintro ⟨-, hr⟩
      rcases (mem_reasons_iff m (susReason kw)).mp hr with
        ⟨a, ha, he⟩ | ⟨a, _, he⟩ | ⟨_, he⟩ | ⟨_, he⟩ | ⟨_, he⟩
      · exact ((mem_spamStepTerms m kw).mp (susReason_inj he ▸ ha)).2
      · exact absurd he.symm (susReason_ne_urgReason kw a)
      · exact absurd he (susReason_ne_const kw).1
      · exact absurd he (susReason_ne_const kw).2.1
      · exact absurd he (susReason_ne_const kw).2.2.1
    · intro htok
      have hsp : kw ∈ spamStepTerms m := (mem_spamStepTerms m kw).mpr ⟨hkw, htok⟩
      exact ⟨(mem_flagged_iff m kw).mpr (Or.inl hsp),
        (mem_reasons_iff m (susReason kw)).mpr (Or.inl ⟨kw, hsp, rfl⟩)⟩
  · intro w hw
    constructor
    · rintro ⟨-, hr⟩
      rcases (mem_reasons_iff m (urgReason w)).mp hr with
        ⟨a, _, he⟩ | ⟨a, ha, he⟩ | ⟨_, he⟩ | ⟨_, he⟩ | ⟨_, he⟩
      · exact absurd he (susReason_ne_urgReason a w)
      · have := (mem_urgencyStepTerms m w).mp (urgReason_inj he ▸ ha)
        exact ⟨this.2.1, this.2.2⟩
      · exact absurd he (urgReason_ne_const w).1
      · exact absurd he (urgReason_ne_const w).2.1
      · exact absurd he (urgReason_ne_const w).2.2.1
    · rintro ⟨hsub, hnot⟩
      have hur : w ∈ urgencyStepTerms m := (mem_urgencyStepTerms m w).mpr ⟨hw, hsub, hnot⟩
      exact ⟨(mem_flagged_iff m w).mpr (Or.inr (Or.inl hur)),
        (mem_reasons_iff m (urgReason w)).mpr (Or.inr (Or.inl ⟨w, hur, rfl⟩))⟩

/-- C3 witness: in `"free urgently"`, the token-exact keyword `free` is
flagged, and `urgent` is flagged as an urgency substring although it is not
a token (it occurs inside `urgently`). -/
theorem keyword_flag_iff_witness :
    ((("free").toList ∈ (explain_message (("free urgently").toList)).1 ∧
        susReason (("free").toList) ∈ (explain_message (("free urgently").toList)).2) ↔
      ("free").toList ∈ tokenize ((("free urgently").toList).map Char.toLower)) ∧
    ((("urgent").toList ∈ (explain_message (("free urgently").toList)).1 ∧
        urgReason (("urgent").toList) ∈ (explain_message (("free urgently").toList)).2) ↔
      (containsSub (("urgent").toList) ((("free urgently").toList).map Char.toLower) = true ∧
        ("urgent").toList ∉ spamStepTerms (("free urgently").toList))) :=
  ⟨(keyword_flag_iff _).1 _ (by decide), (keyword_flag_iff _).2.1 _ (by decide)⟩

/-- C4: with any verdict other than `"spam"` (in particular `"ham"`),
`detect_scammer_intent` returns the empty list, for every message. -/
theorem intent_ham_empty (m : List Char) (prediction : String) (h : prediction ≠ "spam") :
    detect_scammer_intent m prediction = [] :=
  detect_eq_nil_of_ne m prediction h

/-- C4 witness: even a message full of spam signals yields no intents under
a ham verdict. -/
theorem intent_ham_empty_witness :
    detect_scammer_intent (("URGENT win cash now www.x.ru").toList) ("ham") = [] :=
  intent_ham_empty _ _ (by decide)

/-- C5: under a spam verdict, each of the money/data/panic descriptors is
emitted iff at least 2 of its category's keywords occur as substrings of
the lowercased message; the malware descriptor additionally requires the
URL pattern to match; and the returned sequence is a sublist of the fixed
priority order money, data, panic, malware (then the generic fallback). -/
theorem intent_category_iff (m : List Char) :
    (moneyIntent ∈ detect_scammer_intent m ("spam") ↔ 2 ≤ moneyMatches m) ∧
    (dataIntent ∈ detect_scammer_intent m ("spam") ↔ 2 ≤ dataMatches m) ∧
    (panicIntent ∈ detect_scammer_intent m ("spam") ↔ 2 ≤ panicMatches m) ∧
    (malwareIntent ∈ detect_scammer_intent m ("spam") ↔
      (2 ≤ malwareMatches m ∧ urlFound m = true)) ∧
    (detect_scammer_intent m ("spam")).Sublist
      [moneyIntent, dataIntent, panicIntent, malwareIntent, genericIntent] := by
  obtain ⟨n1, n2, n3, n4, n5, n6, n7, n8, n9, n10⟩ := intent_constants_ne
  refine ⟨?_, ?_, ?_, ?_, ?_⟩
  · rw [detect_spam_eq]
    simp [mem_ite_singleton, n1, n2, n3, n4]
  · rw [detect_spam_eq]
    simp [mem_ite_singleton, n1.symm, n5, n6, n7]
  · rw [detect_spam_eq]
    simp [mem_ite_singleton, n2.symm, n5.symm, n8, n9]
  · rw [detect_spam_eq]
    simp [mem_ite_singleton, n3.symm, n6.symm, n8.symm, n10]
  · rw [detect_spam_eq]
    have h5 : ([moneyIntent] ++ [dataIntent] ++ [panicIntent] ++ [malwareIntent] ++
        [genericIntent] : List IntentDescriptor) =
        [moneyIntent, dataIntent, panicIntent, malwareIntent, genericIntent] := rfl
    rw [← h5]
    exact ((((ite_sublist_single.append ite_sublist_single).append
      ite_sublist_single).append ite_sublist_single).append ite_sublist_single)

/-- C5 witness: `"win cash"` has two money-theft substrings and qualifies
for exactly the money descriptor. -/
theorem intent_category_iff_witness :
    (moneyIntent ∈ detect_scammer_intent (("win cash").toList) ("spam") ↔
      2 ≤ moneyMatches (("win cash").toList)) ∧
    (dataIntent ∈ detect_scammer_intent (("win cash").toList) ("spam") ↔
      2 ≤ dataMatches (("win cash").toList)) ∧
    (panicIntent ∈ detect_scammer_intent (("win cash").toList) ("spam") ↔
      2 ≤ panicMatches (("win cash").toList)) ∧
    (malwareIntent ∈ detect_scammer_intent (("win cash").toList) ("spam") ↔
      (2 ≤ malwareMatches (("win cash").toList) ∧ urlFound (("win cash").toList) = true)) ∧
    (detect_scammer_intent (("win cash").toList) ("spam")).Sublist
      [moneyIntent, dataIntent, panicIntent, malwareIntent, genericIntent] :=
  intent_category_iff _

/-- C6: under a spam verdict the generic "Deceptive Intent" descriptor is
returned iff no specific descriptor is, the sequence has length at most 4
(so at most 4 specific descriptors), and it is never empty. -/
theorem generic_intent_iff (m : List Char) :
    (genericIntent ∈ detect_scammer_intent m ("spam") ↔
      (moneyIntent ∉ detect_scammer_intent m ("spam") ∧
        dataIntent ∉ detect_scammer_intent m ("spam") ∧
        panicIntent ∉ detect_scammer_intent m ("spam") ∧
        malwareIntent ∉ detect_scammer_intent m ("spam"))) ∧
    (detect_scammer_intent m ("spam")).length ≤ 4 ∧
    detect_scammer_intent m ("spam") ≠ [] := by
  obtain ⟨n1, n2, n3, n4, n5, n6, n7, n8, n9, n10⟩ := intent_constants_ne
  rw [detect_spam_eq]
  by_cases h1 : moneyMatches m ≥ 2 <;>
    by_cases h2 : dataMatches m ≥ 2 <;>
      by_cases h3 : panicMatches m ≥ 2 <;>
        by_cases h4 : malwareMatches m ≥ 2 ∧ urlFound m = true <;>
          simp [h1, h2, h3, h4, n1, n2, n3, n4, n5, n6, n7, n8, n9, n10,
            n1.symm, n2.symm, n3.symm, n4.symm, n5.symm, n6.symm, n7.symm, n8.symm,
            n9.symm, n10.symm]

/-- C6 witness. -/
theorem generic_intent_iff_witness :
    (genericIntent ∈ detect_scammer_intent (("hello").toList) ("spam") ↔
      (moneyIntent ∉ detect_scammer_intent (("hello").toList) ("spam") ∧
        dataIntent ∉ detect_scammer_intent (("hello").toList) ("spam") ∧
        panicIntent ∉ detect_scammer_intent (("hello").toList) ("spam") ∧
        malwareIntent ∉ detect_scammer_intent (("hello").toList) ("spam"))) ∧
    (detect_scammer_intent (("hello").toList) ("spam")).length ≤ 4 ∧
    detect_scammer_intent (("hello").toList) ("spam") ≠ [] :=
  generic_intent_iff _

/-- C7: under a ham verdict with a non-empty flagged-term list, the
disagreement disclaimer is prepended, so it is the head of the reasons and
precedes every detector-produced reason; with an empty flagged-term list
the reasons are returned unchanged and contain no disclaimer. -/
theorem ham_disclaimer (m : List Char) (confidence : ℚ) :
    ((explain_message m).1 ≠ [] →
      (buildExplanation m ("ham") confidence).explanation =
        hamNote :: (explain_message m).2) ∧
    ((explain_message m).1 = [] →
      (buildExplanation m ("ham") confidence).explanation = (explain_message m).2 ∧
        hamNote ∉ (buildExplanation m ("ham") confidence).explanation) := by
  constructor
  · intro hne
    simp [buildExplanation, hne]
  · intro hemp
    have hexp : (buildExplanation m ("ham") confidence).explanation =
        (explain_message m).2 := by
      simp [buildExplanation, hemp]
    refine ⟨hexp, ?_⟩
    rw [hexp]
    exact hamNote_not_reason m

/-- C7 witness: `"free money"` is flagged, so under a ham verdict the
disclaimer heads the reasons. -/
theorem ham_disclaimer_witness :
    (buildExplanation (("free money").toList) ("ham") 95).explanation =
      hamNote :: (explain_message (("free money").toList)).2 :=
  (ham_disclaimer _ 95).1 (by decide)

/-- C8: under a spam verdict with no detector reason, the returned reasons
are exactly the single generic "learned features" fallback; and a spam
verdict never yields an empty reasons list. -/
theorem spam_fallback (m : List Char) (confidence : ℚ) :
    ((explain_message m).2 = [] →
      (buildExplanation m ("spam") confidence).explanation = [spamNote]) ∧
    (buildExplanation m ("spam") confidence).explanation ≠ [] := by
  constructor
  · intro h
    simp [buildExplanation, h]
  · by_cases h : (explain_message m).2 = []
    · simp [buildExplanation, h]
    · simp [buildExplanation, h]

/-- C8 witness: `"hello"` fires no rule, so a spam verdict returns exactly
the fallback reason. -/
theorem spam_fallback_witness :
    (buildExplanation (("hello").toList) ("spam") 0).explanation = [spamNote] ∧
      (buildExplanation (("hello").toList) ("spam") 0).explanation ≠ [] :=
  ⟨(spam_fallback _ 0).1 (by decide), (spam_fallback _ 0).2⟩

/-- C9: the analyzer and the intent detector are total functions of the
message and verdict (in the embedding all definitions are total and
computable, so no input can raise); in particular the CAPS-ratio
denominator `max(len(words_only), 1)` is positive on every input (the
division is guarded), the analyzer's pair is well-formed (its flagged list
is duplicate-free), and the intent detector always returns a sequence
drawn from the five fixed descriptors. -/
theorem engine_total (m : List Char) (prediction : String) :
    0 < capsDenominator m ∧ (explain_message m).1.Nodup ∧
      detect_scammer_intent m prediction ⊆
        [moneyIntent, dataIntent, panicIntent, malwareIntent, genericIntent] := by
  refine ⟨lt_of_lt_of_le Nat.zero_lt_one (le_max_right _ _), ?_, ?_⟩
  · rw [explain_message_eq]
    exact flagged_nodup m
  · by_cases h : prediction = "spam"
    · subst h
      rw [detect_spam_eq]
      intro a ha
      simp only [List.mem_append, mem_ite_singleton] at ha
      rcases ha with ((((⟨-, rfl⟩ | ⟨-, rfl⟩) | ⟨-, rfl⟩) | ⟨-, rfl⟩) | ⟨-, rfl⟩) <;> simp
    · rw [detect_eq_nil_of_ne m prediction h]
      intro a ha
      exact absurd ha (List.not_mem_nil a)

/-- C9 witness: the guarantees at the empty message (the edge case the
claim singles out). -/
theorem engine_total_witness :
    0 < capsDenominator (("").toList) ∧ (explain_message (("").toList)).1.Nodup ∧
      detect_scammer_intent (("").toList) ("spam") ⊆
        [moneyIntent, dataIntent, panicIntent, malwareIntent, genericIntent] :=
  engine_total _ _

/-- C10: if `explain_message` returns no reason then it returns no flagged
term; consequently, whenever the spam-verdict generic fallback reason
appears in the built explanation, the flagged-term list is empty. -/
theorem no_reasons_no_flags (m : List Char) (confidence : ℚ) :
    ((explain_message m).2 = [] → (explain_message m).1 = []) ∧
    (spamNote ∈ (buildExplanation m ("spam") confidence).explanation →
      (buildExplanation m ("spam") confidence).suspicious_words = []) := by
  have key : (explain_message m).2 = [] → (explain_message m).1 = [] := by
    intro h
    rw [explain_message_eq] at h
    simp only [List.append_eq_nil] at h
    obtain ⟨⟨⟨⟨h1, h2⟩, h3⟩, -⟩, -⟩ := h
    have hspam : spamStepTerms m = [] := List.map_eq_nil_iff.mp h1
    have hurg : urgencyStepTerms m = [] := List.map_eq_nil_iff.mp h2
    have hurl : ¬(urlFound m = true) := by
      intro hu
      rw [if_pos hu] at h3
      exact absurd h3 (by simp)
    rw [explain_message_eq]
    simp [hspam, hurg, hurl]
  refine ⟨key, ?_⟩
  intro hmem
  by_cases h : (explain_message m).2 = []
  · have : (buildExplanation m ("spam") confidence).suspicious_words =
        (explain_message m).1 := by
      simp [buildExplanation]
    rw [this]
    exact key h
  · exfalso
    have hexp : (buildExplanation m ("spam") confidence).explanation =
        (explain_message m).2 := by
      simp [buildExplanation, h]
    rw [hexp] at hmem
    exact spamNote_not_reason m hmem

/-- C10 witness: `"hello"` has empty reasons hence empty flagged terms, and
the fallback-reason case of the built explanation has no flagged term. -/
theorem no_reasons_no_flags_witness :
    (explain_message (("hello").toList)).1 = [] ∧
      (buildExplanation (("hello").toList) ("spam") 0).suspicious_words = [] :=
  ⟨(no_reasons_no_flags (("hello").toList) 0).1 (by decide),
    (no_reasons_no_flags (("hello").toList) 0).2 (by decide)⟩

end PhishLens
